import Mathlib

/-!
Verification development for the movement/steering core of a browser 3D game
(player terrain locomotion, bat steering AI, terrain queries over disks).

The entity code (`Bat` in entities/bat.ts, `Player` in entities/player.ts) is
translated directly from the TypeScript source.  Floating-point numbers are
modelled as real numbers.  The gl-matrix vector operations (`vec3.add`,
`vec3.scale`, `vec3.scaleAndAdd`, `vec3.normalize`, ...) are translated from
the well-known gl-matrix library semantics; in particular `vec3.normalize`
guards the zero vector (`if len > 0`) and yields the zero vector when its
argument is zero.  The helper modules `helpers/mathhelper.ts`
(`vec3_truncate`, `vec2_rotate`), `helpers/collision.ts`
(`cylinderIntersection`), `helpers/random.ts` and `entities/world.ts`
(terrain query service) are not part of the available sources; they are
modelled from the specification, as marked on each such definition.
-/

noncomputable section

open Classical

/-- Component triple of a gl-matrix `vec3`; floats are modelled as reals. -/
structure Vec3 where
  x : ℝ
  y : ℝ
  z : ℝ

/-- Component pair of a gl-matrix `vec2`. -/
structure Vec2 where
  x : ℝ
  y : ℝ

/-- gl-matrix `vec3.add`. -/
def Vec3.add (a b : Vec3) : Vec3 := ⟨a.x + b.x, a.y + b.y, a.z + b.z⟩

/-- gl-matrix `vec3.sub(out, a, b) = a - b`. -/
def Vec3.sub (a b : Vec3) : Vec3 := ⟨a.x - b.x, a.y - b.y, a.z - b.z⟩

/-- gl-matrix `vec3.scale(out, a, s) = a * s`. -/
def Vec3.scale (a : Vec3) (s : ℝ) : Vec3 := ⟨a.x * s, a.y * s, a.z * s⟩

/-- gl-matrix `vec3.scaleAndAdd(out, a, b, s) = a + b * s`. -/
def Vec3.scaleAndAdd (a b : Vec3) (s : ℝ) : Vec3 :=
  ⟨a.x + b.x * s, a.y + b.y * s, a.z + b.z * s⟩

/-- Squared euclidean length (the `len` accumulator of gl-matrix before the
square root). -/
def Vec3.normSq (a : Vec3) : ℝ := a.x * a.x + a.y * a.y + a.z * a.z

/-- gl-matrix `vec3.length`. -/
def Vec3.len (a : Vec3) : ℝ := Real.sqrt a.normSq

/-- gl-matrix `vec3.normalize`: it computes the squared length `l`, and only
when `l > 0` replaces it by the reciprocal square root before multiplying, so
normalizing a zero vector multiplies by `l = 0` and yields the zero vector. -/
def vec3_normalize (a : Vec3) : Vec3 :=
  let l := a.normSq
  if 0 < l then Vec3.scale a (1 / Real.sqrt l) else Vec3.scale a l

/-- Modelled from the spec: `MathHelper.vec3_truncate` (helpers/mathhelper.ts
is not among the sources).  Spec §8: `clamp_magnitude(v, max)` returns `v`
unchanged when `|v| ≤ max` and otherwise rescales `v` to magnitude `max`,
preserving its direction. -/
def vec3_truncate (a : Vec3) (maxLen : ℝ) : Vec3 :=
  if a.len ≤ maxLen then a else Vec3.scale a (maxLen / a.len)

/-- Modelled from the spec: `MathHelper.vec2_rotate` (helpers/mathhelper.ts is
not among the sources).  Spec §2 describes it as a pure 2D rotation helper;
this is the standard counterclockwise rotation by `t` radians. -/
def vec2_rotate (v : Vec2) (t : ℝ) : Vec2 :=
  ⟨v.x * Real.cos t - v.y * Real.sin t, v.x * Real.sin t + v.y * Real.cos t⟩

lemma Vec3.normSq_nonneg (a : Vec3) : 0 ≤ a.normSq := by
  have hx := mul_self_nonneg a.x
  have hy := mul_self_nonneg a.y
  have hz := mul_self_nonneg a.z
  unfold Vec3.normSq
  linarith

lemma Vec3.len_nonneg (a : Vec3) : 0 ≤ a.len := Real.sqrt_nonneg _

lemma Vec3.normSq_eq_zero_iff (a : Vec3) : a.normSq = 0 ↔ a = ⟨0, 0, 0⟩ := by
  constructor
  · intro h
    have hx := mul_self_nonneg a.x
    have hy := mul_self_nonneg a.y
    have hz := mul_self_nonneg a.z
    have hx0 : a.x * a.x = 0 := by unfold Vec3.normSq at h; linarith
    have hy0 : a.y * a.y = 0 := by unfold Vec3.normSq at h; linarith
    have hz0 : a.z * a.z = 0 := by unfold Vec3.normSq at h; linarith
    cases a with
    | mk x y z =>
      simp only [Vec3.mk.injEq]
      exact ⟨by nlinarith, by nlinarith, by nlinarith⟩
  · intro h
    subst h
    unfold Vec3.normSq
    norm_num

lemma Vec3.len_scale (a : Vec3) (s : ℝ) : (Vec3.scale a s).len = |s| * a.len := by
  unfold Vec3.len Vec3.scale Vec3.normSq
  have h : a.x * s * (a.x * s) + a.y * s * (a.y * s) + a.z * s * (a.z * s)
      = s ^ 2 * (a.x * a.x + a.y * a.y + a.z * a.z) := by ring
  simp only [h]
  rw [Real.sqrt_mul (sq_nonneg s), Real.sqrt_sq_eq_abs]

lemma Vec3.len_pos_of_ne (a : Vec3) (h : a ≠ ⟨0, 0, 0⟩) : 0 < a.len := by
  have hs : 0 < a.normSq := by
    rcases lt_or_eq_of_le (Vec3.normSq_nonneg a) with hlt | heq
    · exact hlt
    · exact absurd ((Vec3.normSq_eq_zero_iff a).mp heq.symm) h
  exact Real.sqrt_pos.mpr hs

/-- Clamping never yields a magnitude above a nonnegative bound. -/
lemma vec3_truncate_len_le (a : Vec3) (m : ℝ) (hm : 0 ≤ m) :
    (vec3_truncate a m).len ≤ m := by
  unfold vec3_truncate
  split_ifs with h
  · exact h
  · push_neg at h
    have hl : 0 < a.len := lt_of_le_of_lt hm h
    rw [Vec3.len_scale]
    rw [abs_of_nonneg (div_nonneg hm (le_of_lt hl))]
    rw [div_mul_cancel₀ m (ne_of_gt hl)]

/-- Normalizing a nonzero vector yields a unit vector. -/
lemma vec3_normalize_len (a : Vec3) (h : a ≠ ⟨0, 0, 0⟩) :
    (vec3_normalize a).len = 1 := by
  have hs : 0 < a.normSq := by
    rcases lt_or_eq_of_le (Vec3.normSq_nonneg a) with hlt | heq
    · exact hlt
    · exact absurd ((Vec3.normSq_eq_zero_iff a).mp heq.symm) h
  have hl : 0 < a.len := Real.sqrt_pos.mpr hs
  unfold vec3_normalize
  rw [if_pos hs, Vec3.len_scale]
  have : |1 / Real.sqrt a.normSq| = 1 / a.len := by
    rw [abs_of_nonneg (by positivity)]
    rfl
  rw [this, one_div, inv_mul_cancel₀ (ne_of_gt hl)]

/-- Normalizing the zero vector yields the zero vector (gl-matrix guard). -/
lemma vec3_normalize_zero : vec3_normalize ⟨0, 0, 0⟩ = ⟨0, 0, 0⟩ := by
  unfold vec3_normalize Vec3.normSq Vec3.scale
  norm_num

/-- A zero-magnitude vector is the zero vector. -/
lemma Vec3.eq_zero_of_normSq_nonpos (a : Vec3) (h : ¬ 0 < a.normSq) : a = ⟨0, 0, 0⟩ :=
  (Vec3.normSq_eq_zero_iff a).mp (le_antisymm (not_lt.mp h) (Vec3.normSq_nonneg a))

/-- A disk platform: center position and radius (spec §3, loaded world data). -/
structure Disk where
  center : Vec3
  radius : ℝ

/-- Modelled from the spec: cylinder-vs-disk collision for one disk (spec
§4.1, `isCylinderCollisionWithDisk`; entities/world.ts is not among the
sources).  The disk is a plane at its height extended by its radius
horizontally; a cylinder centered at `p` with the given radius and
half-height intersects it iff the horizontal footprints overlap and the
disk's plane lies within the cylinder's vertical extent. -/
def diskCylinderCollision (d : Disk) (p : Vec3) (r h : ℝ) : Prop :=
  (p.x - d.center.x) ^ 2 + (p.z - d.center.z) ^ 2 ≤ (r + d.radius) ^ 2 ∧
  |p.y - d.center.y| ≤ h

/-- Modelled from the spec: `Collision.cylinderIntersection`
(helpers/collision.ts is not among the sources).  Two upright cylinders
intersect iff their horizontal footprints overlap and their vertical extents
overlap (spec §4.3 step 4 and §4.3 Explore). -/
def Collision.cylinderIntersection (p1 : Vec3) (r1 h1 : ℝ) (p2 : Vec3) (r2 h2 : ℝ) : Prop :=
  (p1.x - p2.x) ^ 2 + (p1.z - p2.z) ^ 2 ≤ (r1 + r2) ^ 2 ∧
  |p1.y - p2.y| ≤ h1 + h2

/-- Modelled from the spec: the World / Terrain Query Service interface (spec
§4.1; entities/world.ts is not among the sources).  The entity code only
calls these queries, so the world is embedded as a record of the query
functions; `randomXZ` is the oracle value the next `getRandomXZPosition()`
call returns (at most one call happens per update). -/
structure World where
  getHeightAtPointPosition : ℝ → ℝ → ℝ
  getHeightAtCirclePosition : ℝ → ℝ → ℝ → ℝ
  isOnDisk : ℝ → ℝ → ℝ → Prop
  isCylinderCollisionWithDisk : Vec3 → ℝ → ℝ → Prop
  getFrictionAtPosition : ℝ → ℝ → ℝ
  getSlopeFactorAtPosition : ℝ → ℝ → ℝ
  randomXZ : Vec3

/-- Modelled from the spec: the disk-based `isCylinderCollisionWithDisk`
implementation — true iff the cylinder intersects at least one disk. -/
def disksCollision (disks : List Disk) (p : Vec3) (r h : ℝ) : Prop :=
  ∃ d ∈ disks, diskCylinderCollision d p r h

/-- The read-only view of the Player the Bat consumes: `position`, `radius`,
`half_height`, `getVelocity()` (bat.ts constructor stores a
`Readonly<Player>`). -/
structure PlayerView where
  position : Vec3
  velocity : Vec3
  radius : ℝ
  half_height : ℝ

/-- bat.ts `enum Bat_State`. -/
inductive Bat_State
  | DEAD
  | PURSUE
  | EXPLORE
deriving DecidableEq

/-- bat.ts `S_MAX = 5.0` (max speed). -/
def S_MAX : ℝ := 5.0

/-- bat.ts `S_MIN = 1.0`. -/
def S_MIN : ℝ := 1.0

/-- bat.ts `A_MAX = 8.0` (max acceleration). -/
def A_MAX : ℝ := 8.0

/-- The mutable state of a `Bat` (bat.ts fields; the `player` and `world`
references are passed explicitly to the methods that read them). -/
structure Bat where
  position : Vec3
  velocity : Vec3
  forward : Vec3
  state : Bat_State
  target_position : Vec3
  ignore_timer : ℝ
  radius : ℝ
  half_height : ℝ

/-- bat.ts constructor (lines 73-87): the velocity is
`vec3.fromValues(Random.randf(0, S_MAX), 0, Random.randf(0, S_MAX))`;
helpers/random.ts is not among the sources, so the two draws, each from
`[0, S_MAX)`, are passed as the oracle parameters `r1` and `r2`.  The initial
exploration target is `world.getRandomXZPosition()` with its y set to 15. -/
def Bat.construct (position : Vec3) (radius half_height : ℝ) (r1 r2 : ℝ)
    (randTarget : Vec3) : Bat :=
  { position := position
    velocity := ⟨r1, 0, r2⟩
    forward := vec3_normalize ⟨r1, 0, r2⟩
    state := Bat_State.EXPLORE
    target_position := ⟨randTarget.x, 15.0, randTarget.z⟩
    ignore_timer := 0
    radius := radius
    half_height := half_height }

/-- bat.ts `seek` (lines 140-157), translated statement by statement. -/
def Bat.seek (b : Bat) (delta_s : ℝ) : Bat :=
  let R := Vec3.sub b.target_position b.position
  let D := Vec3.scale (vec3_normalize R) S_MAX
  let S := Vec3.sub D b.velocity
  let A_desired := Vec3.scale S (1 / delta_s)
  let A := vec3_truncate A_desired A_MAX
  let velocity := vec3_truncate (Vec3.scaleAndAdd b.velocity A delta_s) S_MAX
  let position := Vec3.scaleAndAdd b.position velocity delta_s
  { b with velocity := velocity, position := position, forward := vec3_normalize velocity }

/-- bat.ts `explore` (lines 130-138): repick the roaming target (at altitude
15) when the bat's cylinder intersects a cylinder of radius 2, half-height 1
around the current target, then seek. -/
def Bat.explore (b : Bat) (world : World) (delta_s : ℝ) : Bat :=
  let b1 :=
    if Collision.cylinderIntersection b.position b.radius b.half_height
        b.target_position 2.0 1.0 then
      { b with target_position := ⟨world.randomXZ.x, 15.0, world.randomXZ.z⟩ }
    else b
  b1.seek delta_s

/-- bat.ts `pursue` (lines 159-168): seek toward the player's position led by
the player's velocity scaled by `0.3 *` distance. -/
def Bat.pursue (b : Bat) (player : PlayerView) (delta_s : ℝ) : Bat :=
  let D := Vec3.sub player.position b.position
  let s := D.len * 0.3
  let T := Vec3.scaleAndAdd player.position player.velocity s
  ({ b with target_position := T }).seek delta_s

/-- bat.ts `update` lines 94-95: decrement `ignore_timer` by `delta_s` with a
floor of 0. -/
def Bat.tickTimer (b : Bat) (delta_s : ℝ) : Bat :=
  { b with ignore_timer :=
      if b.ignore_timer - delta_s < 0 then 0 else b.ignore_timer - delta_s }

/-- bat.ts `update` (lines 89-128): no-op when dead; decrement `ignore_timer`
with a floor of 0 (`tickTimer`); die (state DEAD, `ignore_timer = 1.0`, no
motion) when the collision query at the bat's position with half-height `0`
is true; otherwise set PURSUE or EXPLORE from the padded proximity test and
dispatch.  The source sets `this.state` and then switches on it; the dispatch
is folded into the same conditional here.  `tickTimer` only touches
`ignore_timer`, so the collision and proximity conditions, which the source
evaluates after the decrement, are written on `b.position` / `b.radius` /
`b.half_height` directly (those fields are untouched by the decrement). -/
def Bat.update (b : Bat) (world : World) (player : PlayerView) (delta_ms : ℝ) : Bat :=
  if b.state = Bat_State.DEAD then b
  else if world.isCylinderCollisionWithDisk b.position b.radius 0 then
    { Bat.tickTimer b (delta_ms / 1000) with
        state := Bat_State.DEAD, ignore_timer := 1.0 }
  else if Collision.cylinderIntersection b.position (b.radius + 20)
      (b.half_height + 20) player.position player.radius player.half_height then
    ({ Bat.tickTimer b (delta_ms / 1000) with
        state := Bat_State.PURSUE }).pursue player (delta_ms / 1000)
  else
    ({ Bat.tickTimer b (delta_ms / 1000) with
        state := Bat_State.EXPLORE }).explore world (delta_ms / 1000)

/-- player.ts / playermodel.ts animation state signalled via
`model.setState`. -/
inductive Player_State
  | Standing
  | Jumping
  | Falling
deriving DecidableEq

/-- player.ts `GRAVITY = vec3.fromValues(0, -9.8, 0)`. -/
def GRAVITY : Vec3 := ⟨0, -9.8, 0⟩

/-- player.ts constants. -/
def JUMP_UP_SPEED : ℝ := 12.0

def JUMP_FORWARD_SPEED : ℝ := 8.0

/-- The mutable state of the `Player` (player.ts fields; the animation state
held by the rendering model is tracked in `anim`). -/
structure Player where
  position : Vec3
  velocity : Vec3
  forward : Vec3
  jumping : Bool
  anim : Player_State
  radius : ℝ
  half_height : ℝ

/-- The i-th of the 60 equally spaced sample directions of the sliding loop:
`dir = vec2_rotate((1,0), 2π * i / 60)` (player.ts lines 144-145). -/
def dirAt (i : ℕ) : Vec2 := vec2_rotate ⟨1, 0⟩ (Real.pi * 2 * ((i : ℝ) / 60))

/-- One iteration of the sliding loop body (player.ts lines 147-151): compare
the sampled height with the running minimum; on improvement record the new
minimum and the fact that `min_direction = dir` was executed.  In the source
`min_direction = dir` binds `min_direction` to the very scratch vector that
the next iterations overwrite with their own rotation, so what the loop
actually leaves in `min_direction` is the direction of the LAST iteration
(index 59) whenever the flag was ever set — see `Player.update`. -/
def slideStep (h : ℕ → ℝ) (s : ℝ × Bool) (i : ℕ) : ℝ × Bool :=
  if h i < s.1 then (h i, true) else s

/-- The sliding loop (player.ts lines 142-152) over sample indices 0..59,
started from `min_height = player_base_y` and an unset `min_direction`. -/
def slideFold (h : ℕ → ℝ) (base : ℝ) : ℝ × Bool :=
  (List.range 60).foldl (slideStep h) (base, false)

/-- player.ts `update` (lines 99-170), translated branch by branch.

Jumping: apply gravity; on collision of the predicted position either land
(if the old position collided too) or stop against the wall.  Grounded: snap
to the surface, zero vertical velocity, apply friction `friction^dt`, then
the sliding loop; `addAcceleration` adds to the velocity since the player is
not jumping in that branch.  Because of the aliasing of `min_direction = dir`
with the shared scratch vector noted at `slideStep`, the direction the loop
leaves in `min_direction` is `dirAt 59` whenever any sample improved on
`player_base_y`, and the initial `(0,0)` otherwise. -/
def Player.update (p : Player) (world : World) (delta_ms : ℝ) : Player :=
  let delta_s := delta_ms / 1000
  let old_pos := p.position
  let new_pos := Vec3.scaleAndAdd p.position p.velocity delta_s
  let player_base_y := world.getHeightAtCirclePosition new_pos.x new_pos.z p.radius
  let player_y := player_base_y + p.half_height
  if p.jumping then
    let v := Vec3.scaleAndAdd p.velocity GRAVITY delta_s
    if world.isCylinderCollisionWithDisk new_pos p.radius p.half_height then
      if world.isCylinderCollisionWithDisk old_pos p.radius p.half_height then
        { p with jumping := false, anim := Player_State.Standing,
                 velocity := ⟨v.x, 0, v.z⟩,
                 position := ⟨new_pos.x, player_y, new_pos.z⟩ }
      else
        { p with velocity := ⟨0, v.y, 0⟩,
                 position := ⟨old_pos.x, new_pos.y, old_pos.z⟩ }
    else
      { p with velocity := v, position := new_pos }
  else
    if world.isOnDisk new_pos.x new_pos.z p.radius then
      let v1 : Vec3 := ⟨p.velocity.x, 0, p.velocity.z⟩
      let friction := world.getFrictionAtPosition new_pos.x new_pos.z
      let v2 := Vec3.scale v1 (Real.rpow friction delta_s)
      let min_slope := world.getSlopeFactorAtPosition new_pos.x new_pos.z
      let sample := fun i =>
        world.getHeightAtPointPosition (new_pos.x + (dirAt i).x * 0.01)
          (new_pos.z + (dirAt i).y * 0.01)
      let mh := slideFold sample player_base_y
      let min_direction : Vec2 := if mh.2 then dirAt 59 else ⟨0, 0⟩
      let slope := (player_base_y - mh.1) / 0.01
      let v3 :=
        if min_slope < slope then
          Vec3.add v2
            (Vec3.scale ⟨min_direction.x, 0, min_direction.y⟩
              ((slope - min_slope) * 10.0 * delta_s))
        else v2
      { p with velocity := v3, position := ⟨new_pos.x, player_y, new_pos.z⟩ }
    else
      { p with jumping := true, anim := Player_State.Falling, position := new_pos }

/-- player.ts `hitByBat` (lines 172-183).  The returned pair is (player after
the call, the `bat_velocity` argument vector after the call): in the jumping
branch the source calls `vec3.normalize(bat_velocity, bat_velocity)`, whose
out-parameter is `bat_velocity` itself, so the argument vector is normalized
in place; the grounded branch only reads it. -/
def Player.hitByBat (p : Player) (bat_velocity : Vec3) : Player × Vec3 :=
  if p.jumping then
    let n := vec3_normalize bat_velocity
    ({ p with velocity := Vec3.scaleAndAdd p.velocity n 7.0 }, n)
  else
    let v0 : Vec3 := ⟨bat_velocity.x, 0, bat_velocity.z⟩
    let n := vec3_normalize v0
    let v1 := Vec3.scale n 5.0
    ({ p with velocity := ⟨v1.x, 5.0, v1.z⟩, anim := Player_State.Jumping,
              jumping := true }, bat_velocity)

lemma Bat.seek_state (b : Bat) (dt : ℝ) : (Bat.seek b dt).state = b.state := rfl

lemma Bat.seek_ignore_timer (b : Bat) (dt : ℝ) :
    (Bat.seek b dt).ignore_timer = b.ignore_timer := rfl

lemma Bat.seek_target (b : Bat) (dt : ℝ) :
    (Bat.seek b dt).target_position = b.target_position := rfl

lemma Bat.seek_forward_eq (b : Bat) (dt : ℝ) :
    (Bat.seek b dt).forward = vec3_normalize (Bat.seek b dt).velocity := rfl

/-- The velocity a `seek` step leaves behind is the clamp of the integrated
velocity to `S_MAX`. -/
lemma Bat.seek_velocity_eq (b : Bat) (dt : ℝ) :
    (Bat.seek b dt).velocity =
      vec3_truncate
        (Vec3.scaleAndAdd b.velocity
          (vec3_truncate
            (Vec3.scale
              (Vec3.sub (Vec3.scale (vec3_normalize (Vec3.sub b.target_position b.position)) S_MAX)
                b.velocity)
              (1 / dt))
            A_MAX)
          dt)
        S_MAX := rfl

/-- After any `seek` step the speed is at most `S_MAX`. -/
lemma Bat.seek_velocity_len_le (b : Bat) (dt : ℝ) :
    (Bat.seek b dt).velocity.len ≤ S_MAX := by
  rw [Bat.seek_velocity_eq]
  exact vec3_truncate_len_le _ _ (by norm_num [S_MAX])

/-- `explore` ends in a `seek`, so the same speed bound holds. -/
lemma Bat.explore_velocity_len_le (b : Bat) (w : World) (dt : ℝ) :
    (Bat.explore b w dt).velocity.len ≤ S_MAX := by
  unfold Bat.explore
  split_ifs <;> exact Bat.seek_velocity_len_le _ _

/-- `pursue` ends in a `seek`, so the same speed bound holds. -/
lemma Bat.pursue_velocity_len_le (b : Bat) (pl : PlayerView) (dt : ℝ) :
    (Bat.pursue b pl dt).velocity.len ≤ S_MAX := by
  unfold Bat.pursue
  exact Bat.seek_velocity_len_le _ _

lemma Bat.explore_state (b : Bat) (w : World) (dt : ℝ) :
    (Bat.explore b w dt).state = b.state := by
  unfold Bat.explore
  split_ifs <;> rfl

lemma Bat.pursue_state (b : Bat) (pl : PlayerView) (dt : ℝ) :
    (Bat.pursue b pl dt).state = b.state := rfl

/-- The first component of the loop state only decreases along the fold. -/
lemma slideFold_fst_le_init (h : ℕ → ℝ) (l : List ℕ) (s : ℝ × Bool) :
    (l.foldl (slideStep h) s).1 ≤ s.1 := by
  induction l generalizing s with
  | nil => simp
  | cons i t ih =>
    have hstep : (slideStep h s i).1 ≤ s.1 := by
      unfold slideStep
      split_ifs with hc
      · exact le_of_lt hc
      · exact le_rfl
    exact le_trans (ih (slideStep h s i)) hstep

/-- The running minimum ends at most the sampled height of any visited index. -/
lemma slideFold_fst_le_mem (h : ℕ → ℝ) (l : List ℕ) (s : ℝ × Bool) (i : ℕ)
    (hi : i ∈ l) : (l.foldl (slideStep h) s).1 ≤ h i := by
  induction l generalizing s with
  | nil => cases hi
  | cons j t ih =>
    rcases List.mem_cons.mp hi with hji | hit
    · subst hji
      have hstep : (slideStep h s i).1 ≤ h i := by
        unfold slideStep
        split_ifs with hc
        · exact le_rfl
        · exact not_lt.mp hc
      exact le_trans (slideFold_fst_le_init h t (slideStep h s i)) hstep
    · exact ih (slideStep h s j) hit


/-- The running minimum never goes below a common lower bound. -/
lemma slideFold_fst_ge (h : ℕ → ℝ) (l : List ℕ) (s : ℝ × Bool) (c : ℝ)
    (hs : c ≤ s.1) (hl : ∀ i ∈ l, c ≤ h i) :
    c ≤ (l.foldl (slideStep h) s).1 := by
  induction l generalizing s with
  | nil => simpa using hs
  | cons j t ih =>
    have hstep : c ≤ (slideStep h s j).1 := by
      unfold slideStep
      split_ifs with hc
      · exact hl j (List.mem_cons_self j t)
      · exact hs
    exact ih (slideStep h s j) hstep (fun i hi => hl i (List.mem_cons_of_mem j hi))

/-- The flag ends true exactly when it started true or some visited sample
improved on the running minimum at the start. -/
lemma slideFold_snd_iff (h : ℕ → ℝ) (l : List ℕ) (s : ℝ × Bool) :
    (l.foldl (slideStep h) s).2 = true ↔ s.2 = true ∨ ∃ i ∈ l, h i < s.1 := by
  induction l generalizing s with
  | nil => simp
  | cons j t ih =>
    simp only [List.foldl_cons]
    rw [ih (slideStep h s j)]
    unfold slideStep
    split_ifs with hc
    · simp only [List.mem_cons]
      constructor
      · intro _
        exact Or.inr ⟨j, Or.inl rfl, hc⟩
      · intro _
        simp
    · simp only [List.mem_cons]
      constructor
      · rintro (hs | ⟨i, hi, hlt⟩)
        · exact Or.inl hs
        · exact Or.inr ⟨i, Or.inr hi, hlt⟩
      · rintro (hs | ⟨i, (rfl | hi), hlt⟩)
        · exact Or.inl hs
        · exact absurd hlt hc
        · exact Or.inr ⟨i, hi, hlt⟩

/-- A dead bat's update is a no-op (the guard is the first statement). -/
lemma Bat.update_dead (b : Bat) (w : World) (pl : PlayerView) (dms : ℝ)
    (hb : b.state = Bat_State.DEAD) : Bat.update b w pl dms = b := by
  unfold Bat.update
  rw [if_pos hb]

/-- An alive bat whose position passes the half-height-0 collision query dies:
state DEAD, `ignore_timer = 1.0`, and no other field changes. -/
lemma Bat.update_collision (b : Bat) (w : World) (pl : PlayerView) (dms : ℝ)
    (hb : b.state ≠ Bat_State.DEAD)
    (hc : w.isCylinderCollisionWithDisk b.position b.radius 0) :
    Bat.update b w pl dms =
      { b with state := Bat_State.DEAD, ignore_timer := 1.0 } := by
  unfold Bat.update
  rw [if_neg hb, if_pos hc]
  rfl

lemma Bat.seek_position_eq (b : Bat) (dt : ℝ) :
    (Bat.seek b dt).position = Vec3.scaleAndAdd b.position (Bat.seek b dt).velocity dt := rfl

/-- After an alive, non-colliding update the bat has performed a seek, so its
speed is clamped to `S_MAX`; in every other case the velocity is untouched. -/
lemma Bat.update_velocity_cases (b : Bat) (w : World) (pl : PlayerView) (dms : ℝ) :
    (Bat.update b w pl dms).velocity = b.velocity ∨
    (Bat.update b w pl dms).velocity.len ≤ S_MAX := by
  unfold Bat.update
  split_ifs with h1 h2 h3
  · exact Or.inl rfl
  · exact Or.inl rfl
  · exact Or.inr (Bat.pursue_velocity_len_le _ _ _)
  · exact Or.inr (Bat.explore_velocity_len_le _ _ _)

/-- An alive update that does not hit the terrain always ends in a seek, so
its resulting speed is at most `S_MAX`. -/
lemma Bat.update_velocity_len_le (b : Bat) (w : World) (pl : PlayerView) (dms : ℝ)
    (hb : b.state ≠ Bat_State.DEAD)
    (hc : ¬ w.isCylinderCollisionWithDisk b.position b.radius 0) :
    (Bat.update b w pl dms).velocity.len ≤ S_MAX := by
  unfold Bat.update
  rw [if_neg hb, if_neg hc]
  split_ifs with h
  · exact Bat.pursue_velocity_len_le _ _ _
  · exact Bat.explore_velocity_len_le _ _ _

/-- Agreement of two bat states on everything except `ignore_timer`. -/
def Bat.SameMotion (a b : Bat) : Prop :=
  a.position = b.position ∧ a.velocity = b.velocity ∧ a.forward = b.forward ∧
  a.state = b.state ∧ a.target_position = b.target_position ∧
  a.radius = b.radius ∧ a.half_height = b.half_height

lemma Bat.sameMotion_seek (a b : Bat) (dt : ℝ) (h : Bat.SameMotion a b) :
    Bat.SameMotion (Bat.seek a dt) (Bat.seek b dt) := by
  obtain ⟨hp, hv, hf, hs, ht, hr, hh⟩ := h
  have hvel : (Bat.seek a dt).velocity = (Bat.seek b dt).velocity := by
    rw [Bat.seek_velocity_eq, Bat.seek_velocity_eq, hp, hv, ht]
  refine ⟨?_, hvel, ?_, ?_, ?_, hr, hh⟩
  · rw [Bat.seek_position_eq, Bat.seek_position_eq, hp, hvel]
  · rw [Bat.seek_forward_eq, Bat.seek_forward_eq, hvel]
  · rw [Bat.seek_state, Bat.seek_state, hs]
  · rw [Bat.seek_target, Bat.seek_target, ht]

lemma Bat.sameMotion_explore (a b : Bat) (w : World) (dt : ℝ)
    (h : Bat.SameMotion a b) :
    Bat.SameMotion (Bat.explore a w dt) (Bat.explore b w dt) := by
  obtain ⟨hp, hv, hf, hs, ht, hr, hh⟩ := h
  have hcond : Collision.cylinderIntersection a.position a.radius a.half_height
      a.target_position 2.0 1.0 ↔
      Collision.cylinderIntersection b.position b.radius b.half_height
        b.target_position 2.0 1.0 := by
    rw [hp, ht, hr, hh]
  unfold Bat.explore
  by_cases hc : Collision.cylinderIntersection b.position b.radius b.half_height
      b.target_position 2.0 1.0
  · rw [if_pos (hcond.mpr hc), if_pos hc]
    exact Bat.sameMotion_seek _ _ dt ⟨hp, hv, hf, hs, rfl, hr, hh⟩
  · rw [if_neg (fun hx => hc (hcond.mp hx)), if_neg hc]
    exact Bat.sameMotion_seek _ _ dt ⟨hp, hv, hf, hs, ht, hr, hh⟩

lemma Bat.sameMotion_pursue (a b : Bat) (pl : PlayerView) (dt : ℝ)
    (h : Bat.SameMotion a b) :
    Bat.SameMotion (Bat.pursue a pl dt) (Bat.pursue b pl dt) := by
  obtain ⟨hp, hv, hf, hs, ht, hr, hh⟩ := h
  unfold Bat.pursue
  refine Bat.sameMotion_seek _ _ dt ⟨hp, hv, hf, hs, ?_, hr, hh⟩
  show Vec3.scaleAndAdd pl.position pl.velocity ((Vec3.sub pl.position a.position).len * 0.3)
      = Vec3.scaleAndAdd pl.position pl.velocity ((Vec3.sub pl.position b.position).len * 0.3)
  rw [hp]

/-- Two alive bats that agree on everything except `ignore_timer` produce the
same motion and state transition from one update: the timer is only
decremented/clamped (and set to 1.0 on death); nothing in `update` reads it. -/
lemma Bat.sameMotion_update (a b : Bat) (w : World) (pl : PlayerView) (dms : ℝ)
    (h : Bat.SameMotion a b) (ha : a.state ≠ Bat_State.DEAD) :
    Bat.SameMotion (Bat.update a w pl dms) (Bat.update b w pl dms) := by
  obtain ⟨hp, hv, hf, hs, ht, hr, hh⟩ := h
  have hb : b.state ≠ Bat_State.DEAD := hs ▸ ha
  have hcol : w.isCylinderCollisionWithDisk a.position a.radius 0 ↔
      w.isCylinderCollisionWithDisk b.position b.radius 0 := by rw [hp, hr]
  have hprox : Collision.cylinderIntersection a.position (a.radius + 20)
      (a.half_height + 20) pl.position pl.radius pl.half_height ↔
      Collision.cylinderIntersection b.position (b.radius + 20)
        (b.half_height + 20) pl.position pl.radius pl.half_height := by
    rw [hp, hr, hh]
  unfold Bat.update
  rw [if_neg ha, if_neg hb]
  by_cases hc : w.isCylinderCollisionWithDisk b.position b.radius 0
  · rw [if_pos (hcol.mpr hc), if_pos hc]
    exact ⟨hp, hv, hf, rfl, ht, hr, hh⟩
  · rw [if_neg (fun hx => hc (hcol.mp hx)), if_neg hc]
    by_cases hq : Collision.cylinderIntersection b.position (b.radius + 20)
        (b.half_height + 20) pl.position pl.radius pl.half_height
    · rw [if_pos (hprox.mpr hq), if_pos hq]
      exact Bat.sameMotion_pursue _ _ pl _ ⟨hp, hv, hf, rfl, ht, hr, hh⟩
    · rw [if_neg (fun hx => hq (hprox.mp hx)), if_neg hq]
      exact Bat.sameMotion_explore _ _ w _ ⟨hp, hv, hf, rfl, ht, hr, hh⟩

/-- A world whose terrain queries are everywhere trivial: no disk underlies
any point, no cylinder collides, friction 1, slope threshold 0.6. -/
def noTerrainWorld : World where
  getHeightAtPointPosition := fun _ _ => 0
  getHeightAtCirclePosition := fun _ _ _ => 0
  isOnDisk := fun _ _ _ => False
  isCylinderCollisionWithDisk := fun _ _ _ => False
  getFrictionAtPosition := fun _ _ => 1
  getSlopeFactorAtPosition := fun _ _ => 0.6
  randomXZ := ⟨0, 0, 0⟩

/-- A world in which every cylinder collides with a disk. -/
def allCollisionWorld : World :=
  { noTerrainWorld with isCylinderCollisionWithDisk := fun _ _ _ => True }

/-- A player far away from the origin (outside every proximity pad used in
the fixtures). -/
def pvFar : PlayerView := ⟨⟨1000, 0.8, 0⟩, ⟨0, 0, 0⟩, 0.5, 0.9⟩

/-- An exploring bat fixture. -/
def bExplore : Bat :=
  ⟨⟨0, 15, 0⟩, ⟨1, 0, 0⟩, ⟨1, 0, 0⟩, Bat_State.EXPLORE, ⟨40, 15, 0⟩, 0, 0.7, 0.1⟩

/-- A dead bat fixture. -/
def bDead : Bat :=
  ⟨⟨2, 3, 4⟩, ⟨1, 1, 1⟩, ⟨1, 0, 0⟩, Bat_State.DEAD, ⟨40, 15, 0⟩, 0.5, 0.7, 0.1⟩

/-- A bat fixture whose current speed 9 already exceeds `S_MAX`. -/
def bFast : Bat :=
  ⟨⟨0, 15, 0⟩, ⟨9, 0, 0⟩, ⟨1, 0, 0⟩, Bat_State.EXPLORE, ⟨40, 15, 0⟩, 0, 0.7, 0.1⟩

/-- C1: for every call to the Bat's seek with `maxSpeed = S_MAX > 0` and
`dt > 0`, and for every starting velocity (including one whose magnitude
already exceeds `S_MAX`), the resulting velocity magnitude is at most
`S_MAX`: the last assignment to the velocity is the clamp
`vec3_truncate(velocity + A * dt, S_MAX)`. -/
theorem c1_seek_speed_clamped (b : Bat) (delta_s : ℝ) (hdt : 0 < delta_s) :
    (Bat.seek b delta_s).velocity.len ≤ S_MAX :=
  Bat.seek_velocity_len_le b delta_s

theorem c1_seek_speed_clamped_witness :
    (0 : ℝ) < 1 ∧ (Bat.seek bFast 1).velocity.len ≤ S_MAX :=
  ⟨by norm_num, c1_seek_speed_clamped bFast 1 (by norm_num)⟩

/-- C2: a Bat in the `Dead` state is left entirely unchanged (position,
velocity, state, target_position, and every other field) by any subsequent
`update`, whatever the delta time, player, and world are: the dead guard
returns before anything is mutated. -/
theorem c2_dead_update_noop (b : Bat) (w : World) (pl : PlayerView) (dms : ℝ)
    (hb : b.state = Bat_State.DEAD) : Bat.update b w pl dms = b :=
  Bat.update_dead b w pl dms hb

theorem c2_dead_update_noop_witness :
    bDead.state = Bat_State.DEAD ∧
    Bat.update bDead noTerrainWorld pvFar 16 = bDead :=
  ⟨rfl, c2_dead_update_noop bDead noTerrainWorld pvFar 16 rfl⟩

/-- C5 (amended): for every non-Dead Bat update, if the collision query at
the bat's position with the bat's radius and half-height 0 — the degenerate
cylinder the source actually passes, not the bat's own `half_height` — is
true, the bat dies: state `DEAD`, `ignore_timer = 1.0`, and position and
velocity (and forward and target) unchanged. -/
theorem c5_amended_death_uses_zero_half_height (b : Bat) (w : World)
    (pl : PlayerView) (dms : ℝ) (hb : b.state ≠ Bat_State.DEAD)
    (hc : w.isCylinderCollisionWithDisk b.position b.radius 0) :
    (Bat.update b w pl dms).state = Bat_State.DEAD ∧
    (Bat.update b w pl dms).ignore_timer = 1.0 ∧
    (Bat.update b w pl dms).position = b.position ∧
    (Bat.update b w pl dms).velocity = b.velocity ∧
    (Bat.update b w pl dms).forward = b.forward ∧
    (Bat.update b w pl dms).target_position = b.target_position := by
  rw [Bat.update_collision b w pl dms hb hc]
  exact ⟨rfl, rfl, rfl, rfl, rfl, rfl⟩

theorem c5_amended_death_uses_zero_half_height_witness :
    bExplore.state ≠ Bat_State.DEAD ∧
    (Bat.update bExplore allCollisionWorld pvFar 16).state = Bat_State.DEAD ∧
    (Bat.update bExplore allCollisionWorld pvFar 16).ignore_timer = 1.0 := by
  have h := c5_amended_death_uses_zero_half_height bExplore allCollisionWorld
    pvFar 16 (by decide) (by exact trivial)
  exact ⟨by decide, h.1, h.2.1⟩

/-- C10: a non-Dead Bat's update result — state, position, velocity, forward
and target_position — is independent of the starting `ignore_timer`: the
timer is only decremented/clamped (and set on death) and is never read by
the collision, proximity, explore, pursue or seek computations. -/
theorem c10_ignore_timer_noninterference (b : Bat) (w : World) (pl : PlayerView)
    (dms t : ℝ) (hb : b.state ≠ Bat_State.DEAD) :
    (Bat.update { b with ignore_timer := t } w pl dms).state
        = (Bat.update b w pl dms).state ∧
    (Bat.update { b with ignore_timer := t } w pl dms).position
        = (Bat.update b w pl dms).position ∧
    (Bat.update { b with ignore_timer := t } w pl dms).velocity
        = (Bat.update b w pl dms).velocity ∧
    (Bat.update { b with ignore_timer := t } w pl dms).forward
        = (Bat.update b w pl dms).forward ∧
    (Bat.update { b with ignore_timer := t } w pl dms).target_position
        = (Bat.update b w pl dms).target_position := by
  have h := Bat.sameMotion_update { b with ignore_timer := t } b w pl dms
    ⟨rfl, rfl, rfl, rfl, rfl, rfl, rfl⟩ hb
  obtain ⟨hp, hv, hf, hs, ht, hr, hh⟩ := h
  exact ⟨hs, hp, hv, hf, ht⟩

theorem c10_ignore_timer_noninterference_witness :
    bExplore.state ≠ Bat_State.DEAD ∧
    (Bat.update { bExplore with ignore_timer := 0.75 } noTerrainWorld pvFar 16).velocity
        = (Bat.update bExplore noTerrainWorld pvFar 16).velocity ∧
    (Bat.update { bExplore with ignore_timer := 0.75 } noTerrainWorld pvFar 16).position
        = (Bat.update bExplore noTerrainWorld pvFar 16).position := by
  have h := c10_ignore_timer_noninterference bExplore noTerrainWorld pvFar 16 0.75
    (by decide)
  exact ⟨by decide, h.2.2.1, h.2.1⟩

/-- C7 (amended): a Bat's speed never exceeds `S_MAX` after any update that
reaches the seek behaviour (alive, no terrain hit), and no update ever
raises the speed above `max` of its current value and `S_MAX`; the claim's
"at every moment after construction" part fails — see the counterexample:
the constructor's velocity `(randf(0,S_MAX), 0, randf(0,S_MAX))` can have
magnitude up to `S_MAX * sqrt 2`. -/
theorem c7_amended_speed_invariant (b : Bat) (w : World) (pl : PlayerView)
    (dms : ℝ) (hdt : 0 < dms) :
    (Bat.update b w pl dms).velocity.len ≤ max b.velocity.len S_MAX ∧
    (b.state ≠ Bat_State.DEAD →
      ¬ w.isCylinderCollisionWithDisk b.position b.radius 0 →
      (Bat.update b w pl dms).velocity.len ≤ S_MAX) := by
  constructor
  · rcases Bat.update_velocity_cases b w pl dms with h | h
    · rw [h]
      exact le_max_left _ _
    · exact le_trans h (le_max_right _ _)
  · intro hb hc
    exact Bat.update_velocity_len_le b w pl dms hb hc

theorem c7_amended_speed_invariant_witness :
    (0 : ℝ) < 1000 ∧
    (Bat.update bExplore noTerrainWorld pvFar 1000).velocity.len ≤ S_MAX := by
  have h := c7_amended_speed_invariant bExplore noTerrainWorld pvFar 1000
    (by norm_num)
  exact ⟨by norm_num, h.2 (by decide) (fun hx => hx)⟩

/-- C7 counterexample: the bat constructed with the two admissible random
draws `4` and `4` (each in `[0, S_MAX)`) starts with velocity `(4, 0, 4)`,
whose magnitude `sqrt 32 > 5 = S_MAX` — so the claimed invariant "at every
moment after construction the speed never exceeds `S_MAX`" is already false
at construction time. -/
theorem c7_counterexample_construction_speed :
    (0 : ℝ) ≤ 4 ∧ (4 : ℝ) < S_MAX ∧
    S_MAX < (Bat.construct ⟨0, 20, 0⟩ 0.7 0.1 4 4 ⟨3, 0, 4⟩).velocity.len := by
  refine ⟨by norm_num, by norm_num [S_MAX], ?_⟩
  have hv : (Bat.construct ⟨0, 20, 0⟩ 0.7 0.1 4 4 ⟨3, 0, 4⟩).velocity
      = ⟨4, 0, 4⟩ := rfl
  rw [hv]
  unfold Vec3.len Vec3.normSq S_MAX
  have h32 : (4 : ℝ) * 4 + 0 * 0 + 4 * 4 = 32 := by norm_num
  rw [h32]
  rw [show (5.0 : ℝ) = Real.sqrt 25 by
    rw [show (25 : ℝ) = 5 ^ 2 by norm_num, Real.sqrt_sq (by norm_num : (0:ℝ) ≤ 5)]
    norm_num]
  exact Real.sqrt_lt_sqrt (by norm_num) (by norm_num)

/-- C8 (amended): `seek` always ends with `forward = vec3.normalize(velocity)`
with no zero guard of its own; gl-matrix normalize maps the zero vector to
the zero vector, so when the clamped velocity is exactly zero the forward
vector is OVERWRITTEN WITH ZERO (not left unchanged as claimed); for a
nonzero clamped velocity, forward is the normalization of the velocity and
has unit length. -/
theorem c8_amended_forward_normalization (b : Bat) (dt : ℝ) :
    ((Bat.seek b dt).velocity = ⟨0, 0, 0⟩ → (Bat.seek b dt).forward = ⟨0, 0, 0⟩) ∧
    ((Bat.seek b dt).velocity ≠ ⟨0, 0, 0⟩ →
      (Bat.seek b dt).forward = vec3_normalize (Bat.seek b dt).velocity ∧
      (Bat.seek b dt).forward.len = 1) := by
  constructor
  · intro h
    rw [Bat.seek_forward_eq, h, vec3_normalize_zero]
  · intro h
    refine ⟨Bat.seek_forward_eq b dt, ?_⟩
    rw [Bat.seek_forward_eq]
    exact vec3_normalize_len _ h

/-- A bat already standing on its own target with speed 1 toward +x: the
seek step computes a steering acceleration that exactly cancels its velocity,
so the clamped velocity is the zero vector. -/
def bZeroSeek : Bat :=
  ⟨⟨0, 15, 0⟩, ⟨1, 0, 0⟩, ⟨1, 0, 0⟩, Bat_State.EXPLORE, ⟨0, 15, 0⟩, 0, 0.7, 0.1⟩

/-- C8 counterexample: with `bZeroSeek` and `dt = 1` the velocity after the
clamp step is exactly the zero vector, and `seek` does NOT leave the forward
vector unchanged: it overwrites the previous forward `(1,0,0)` with
`normalize(0) = (0,0,0)`. -/
theorem c8_counterexample_zero_velocity_forward :
    (Bat.seek bZeroSeek 1).velocity = ⟨0, 0, 0⟩ ∧
    (Bat.seek bZeroSeek 1).forward ≠ bZeroSeek.forward := by
  have len1 : Vec3.len ⟨-1, 0, 0⟩ = 1 := by
    unfold Vec3.len Vec3.normSq
    norm_num
  have len0 : Vec3.len ⟨0, 0, 0⟩ = 0 := by
    unfold Vec3.len Vec3.normSq
    norm_num
  have hv : (Bat.seek bZeroSeek 1).velocity = ⟨0, 0, 0⟩ := by
    rw [Bat.seek_velocity_eq]
    have h1 : Vec3.sub bZeroSeek.target_position bZeroSeek.position = ⟨0, 0, 0⟩ := by
      simp [bZeroSeek, Vec3.sub]
    rw [h1, vec3_normalize_zero]
    have h2 : Vec3.scale ⟨0, 0, 0⟩ S_MAX = (⟨0, 0, 0⟩ : Vec3) := by
      simp [Vec3.scale]
    rw [h2]
    have h3 : Vec3.sub ⟨0, 0, 0⟩ bZeroSeek.velocity = ⟨-1, 0, 0⟩ := by
      simp [bZeroSeek, Vec3.sub]
    rw [h3]
    have h4 : Vec3.scale ⟨-1, 0, 0⟩ (1 / (1 : ℝ)) = (⟨-1, 0, 0⟩ : Vec3) := by
      simp [Vec3.scale]
    rw [h4]
    have h5 : vec3_truncate ⟨-1, 0, 0⟩ A_MAX = ⟨-1, 0, 0⟩ := by
      unfold vec3_truncate
      rw [if_pos]
      rw [len1]
      norm_num [A_MAX]
    rw [h5]
    have h6 : Vec3.scaleAndAdd bZeroSeek.velocity ⟨-1, 0, 0⟩ 1 = (⟨0, 0, 0⟩ : Vec3) := by
      simp [bZeroSeek, Vec3.scaleAndAdd]
    rw [h6]
    unfold vec3_truncate
    rw [if_pos]
    rw [len0]
    norm_num [S_MAX]
  refine ⟨hv, ?_⟩
  rw [Bat.seek_forward_eq, hv, vec3_normalize_zero]
  intro hcontra
  have : (0 : ℝ) = 1 := congrArg Vec3.x hcontra
  norm_num at this

/-- The one-disk world of the C5 counterexample: a single disk of radius 5
at the origin. -/
def c5World : World :=
  { noTerrainWorld with
      isCylinderCollisionWithDisk := disksCollision [⟨⟨0, 0, 0⟩, 5⟩] }

/-- A live bat hovering 0.05 above the disk plane: its full cylinder
(half-height 0.1) overlaps the disk plane, but the degenerate half-height-0
cylinder the source passes to the collision query does not. -/
def c5bat : Bat :=
  ⟨⟨0, 0.05, 0⟩, ⟨1, 0, 0⟩, ⟨1, 0, 0⟩, Bat_State.EXPLORE, ⟨100, 15, 100⟩, 0, 0.7, 0.1⟩

/-- C5 counterexample: the bat's own cylinder (radius 0.7, half-height 0.1)
collides with the disk, yet the update does not kill it — the source passes
half-height `0` to the collision query, which then reports no collision, and
the bat goes on exploring. -/
theorem c5_counterexample_full_cylinder_not_lethal :
    c5bat.state ≠ Bat_State.DEAD ∧
    c5World.isCylinderCollisionWithDisk c5bat.position c5bat.radius c5bat.half_height ∧
    (Bat.update c5bat c5World pvFar 1000).state ≠ Bat_State.DEAD := by
  have hNoCol : ¬ c5World.isCylinderCollisionWithDisk c5bat.position c5bat.radius 0 := by
    simp only [c5World, c5bat, disksCollision, diskCylinderCollision, List.mem_singleton]
    rintro ⟨d, hd, hhor, hver⟩
    subst hd
    simp only at hver
    rw [abs_le] at hver
    norm_num at hver
  have hNoProx : ¬ Collision.cylinderIntersection c5bat.position (c5bat.radius + 20)
      (c5bat.half_height + 20) pvFar.position pvFar.radius pvFar.half_height := by
    intro h
    obtain ⟨hhor, hver⟩ := h
    simp only [c5bat, pvFar] at hhor
    norm_num at hhor
  refine ⟨by decide, ?_, ?_⟩
  · refine ⟨⟨⟨0, 0, 0⟩, 5⟩, by simp, ?_, ?_⟩
    · simp only [c5bat]
      norm_num
    · simp only [c5bat]
      rw [abs_le]
      norm_num
  · unfold Bat.update
    rw [if_neg (by decide : ¬ c5bat.state = Bat_State.DEAD)]
    rw [if_neg hNoCol, if_neg hNoProx]
    rw [Bat.explore_state]
    decide

/-- Normalization of a vector of positive squared length is the scaling by
the reciprocal square root. -/
lemma vec3_normalize_pos (a : Vec3) (hs : 0 < a.normSq) :
    vec3_normalize a = Vec3.scale a (1 / Real.sqrt a.normSq) := by
  unfold vec3_normalize
  rw [if_pos hs]

/-- C4: for a jumping Player update whose predicted new position collides
with a disk: if the old position also collided the player lands — `jumping`
becomes false, animation Standing, vertical velocity zeroed, horizontal
velocity untouched (gravity only affects y), and the new y is the terrain
height at the predicted position plus `half_height`; otherwise (side
collision) the horizontal velocity components are zeroed and the horizontal
position stays at the old position, while the gravity-integrated vertical
velocity and the predicted vertical motion are preserved. -/
theorem c4_jump_collision_response (w : World) (p : Player) (dms : ℝ)
    (hj : p.jumping = true)
    (hcol : w.isCylinderCollisionWithDisk
      (Vec3.scaleAndAdd p.position p.velocity (dms / 1000)) p.radius p.half_height) :
    (w.isCylinderCollisionWithDisk p.position p.radius p.half_height →
      (Player.update p w dms).jumping = false ∧
      (Player.update p w dms).anim = Player_State.Standing ∧
      (Player.update p w dms).velocity.y = 0 ∧
      (Player.update p w dms).velocity.x = p.velocity.x ∧
      (Player.update p w dms).velocity.z = p.velocity.z ∧
      (Player.update p w dms).position.y =
        w.getHeightAtCirclePosition
          (Vec3.scaleAndAdd p.position p.velocity (dms / 1000)).x
          (Vec3.scaleAndAdd p.position p.velocity (dms / 1000)).z p.radius
          + p.half_height) ∧
    (¬ w.isCylinderCollisionWithDisk p.position p.radius p.half_height →
      (Player.update p w dms).velocity.x = 0 ∧
      (Player.update p w dms).velocity.z = 0 ∧
      (Player.update p w dms).velocity.y = p.velocity.y + (-9.8) * (dms / 1000) ∧
      (Player.update p w dms).position.x = p.position.x ∧
      (Player.update p w dms).position.z = p.position.z ∧
      (Player.update p w dms).position.y = p.position.y + p.velocity.y * (dms / 1000)) := by
  have hjp : p.jumping = true := hj
  constructor <;> intro hold
  · have hupd : Player.update p w dms =
        { p with jumping := false, anim := Player_State.Standing,
                 velocity := ⟨(Vec3.scaleAndAdd p.velocity GRAVITY (dms / 1000)).x, 0,
                              (Vec3.scaleAndAdd p.velocity GRAVITY (dms / 1000)).z⟩,
                 position := ⟨(Vec3.scaleAndAdd p.position p.velocity (dms / 1000)).x,
                              w.getHeightAtCirclePosition
                                (Vec3.scaleAndAdd p.position p.velocity (dms / 1000)).x
                                (Vec3.scaleAndAdd p.position p.velocity (dms / 1000)).z p.radius
                                + p.half_height,
                              (Vec3.scaleAndAdd p.position p.velocity (dms / 1000)).z⟩ } := by
      unfold Player.update
      rw [if_pos hjp, if_pos hcol, if_pos hold]
    rw [hupd]
    refine ⟨rfl, rfl, rfl, ?_, ?_, rfl⟩ <;>
      simp [Vec3.scaleAndAdd, GRAVITY]
  · have hupd : Player.update p w dms =
        { p with velocity := ⟨0, (Vec3.scaleAndAdd p.velocity GRAVITY (dms / 1000)).y, 0⟩,
                 position := ⟨p.position.x,
                              (Vec3.scaleAndAdd p.position p.velocity (dms / 1000)).y,
                              p.position.z⟩ } := by
      unfold Player.update
      rw [if_pos hjp, if_pos hcol, if_neg hold]
    rw [hupd]
    refine ⟨rfl, rfl, ?_, rfl, rfl, ?_⟩ <;>
      simp [Vec3.scaleAndAdd, GRAVITY]

/-- A grounded player fixture. -/
def pGround : Player :=
  ⟨⟨0, 0.8, 0⟩, ⟨3, 0, 1⟩, ⟨1, 0, 0⟩, false, Player_State.Standing, 0.5, 0.8⟩

/-- An airborne (jumping) player fixture. -/
def pJump : Player :=
  ⟨⟨0, 5, 0⟩, ⟨0, -1, 0⟩, ⟨1, 0, 0⟩, true, Player_State.Jumping, 0.5, 0.8⟩

theorem c4_jump_collision_response_witness :
    pJump.jumping = true ∧
    allCollisionWorld.isCylinderCollisionWithDisk
      (Vec3.scaleAndAdd pJump.position pJump.velocity (16 / 1000))
      pJump.radius pJump.half_height ∧
    (Player.update pJump allCollisionWorld 16).jumping = false ∧
    (Player.update pJump allCollisionWorld 16).velocity.y = 0 := by
  have h := c4_jump_collision_response allCollisionWorld pJump 16 rfl (by exact trivial)
  have h1 := h.1 (by exact trivial)
  exact ⟨rfl, trivial, h1.1, h1.2.2.1⟩

/-- C6: `hitByBat` on a grounded player fully replaces the velocity: the
horizontal part is the normalized horizontal direction of the bat's velocity
scaled to speed 5, the vertical component is 5, and the player enters the
Jumping state (animation Jumping). -/
theorem c6_hit_by_bat_grounded_launch (p : Player) (bv : Vec3)
    (hj : p.jumping = false) (hnz : bv.x ≠ 0 ∨ bv.z ≠ 0) :
    (Player.hitByBat p bv).1.velocity =
      ⟨(vec3_normalize ⟨bv.x, 0, bv.z⟩).x * 5.0, 5.0,
       (vec3_normalize ⟨bv.x, 0, bv.z⟩).z * 5.0⟩ ∧
    Real.sqrt ((Player.hitByBat p bv).1.velocity.x ^ 2 +
      (Player.hitByBat p bv).1.velocity.z ^ 2) = 5 ∧
    (Player.hitByBat p bv).1.velocity.y = 5.0 ∧
    (Player.hitByBat p bv).1.jumping = true ∧
    (Player.hitByBat p bv).1.anim = Player_State.Jumping := by
  have hcond : ¬ (p.jumping = true) := by
    rw [hj]
    simp
  have hs : 0 < (Vec3.normSq ⟨bv.x, 0, bv.z⟩) := by
    have hx2 := mul_self_nonneg bv.x
    have hz2 := mul_self_nonneg bv.z
    rcases hnz with hx | hz
    · have := mul_self_pos.mpr hx
      unfold Vec3.normSq
      simp only
      nlinarith
    · have := mul_self_pos.mpr hz
      unfold Vec3.normSq
      simp only
      nlinarith
  have hred : (Player.hitByBat p bv).1 =
      { p with velocity := ⟨(Vec3.scale (vec3_normalize ⟨bv.x, 0, bv.z⟩) 5.0).x, 5.0,
                            (Vec3.scale (vec3_normalize ⟨bv.x, 0, bv.z⟩) 5.0).z⟩,
               anim := Player_State.Jumping, jumping := true } := by
    unfold Player.hitByBat
    rw [if_neg hcond]
  rw [hred]
  refine ⟨rfl, ?_, rfl, rfl, rfl⟩
  rw [vec3_normalize_pos _ hs]
  have hsqrt : Real.sqrt (Vec3.normSq ⟨bv.x, 0, bv.z⟩) ^ 2
      = Vec3.normSq ⟨bv.x, 0, bv.z⟩ := Real.sq_sqrt hs.le
  have hne : Real.sqrt (Vec3.normSq ⟨bv.x, 0, bv.z⟩) ≠ 0 :=
    ne_of_gt (Real.sqrt_pos.mpr hs)
  unfold Vec3.normSq at hsqrt hne ⊢
  simp only [Vec3.scale] at hsqrt hne ⊢
  rw [show ((⟨bv.x, 0, bv.z⟩ : Vec3).x * (1 / Real.sqrt (bv.x * bv.x + 0 * 0 + bv.z * bv.z)) * 5.0) ^ 2 +
      ((⟨bv.x, 0, bv.z⟩ : Vec3).z * (1 / Real.sqrt (bv.x * bv.x + 0 * 0 + bv.z * bv.z)) * 5.0) ^ 2
      = 25 * ((bv.x * bv.x + 0 * 0 + bv.z * bv.z) /
          Real.sqrt (bv.x * bv.x + 0 * 0 + bv.z * bv.z) ^ 2) by
    field_simp
    ring]
  rw [hsqrt]
  rw [div_self (show bv.x * bv.x + 0 * 0 + bv.z * bv.z ≠ 0 from ne_of_gt hs)]
  rw [mul_one]
  rw [show (25 : ℝ) = 5 ^ 2 by norm_num, Real.sqrt_sq (by norm_num : (0:ℝ) ≤ 5)]

theorem c6_hit_by_bat_grounded_launch_witness :
    pGround.jumping = false ∧
    (Player.hitByBat pGround ⟨1, 0, 0⟩).1.velocity = ⟨5, 5, 0⟩ ∧
    (Player.hitByBat pGround ⟨1, 0, 0⟩).1.jumping = true := by
  have h := c6_hit_by_bat_grounded_launch pGround ⟨1, 0, 0⟩ rfl (Or.inl one_ne_zero)
  refine ⟨rfl, ?_, h.2.2.2.1⟩
  rw [h.1]
  have hn : vec3_normalize ⟨(⟨(1:ℝ), 0, 0⟩ : Vec3).x, 0, (⟨(1:ℝ), 0, 0⟩ : Vec3).z⟩
      = ⟨1, 0, 0⟩ := by
    rw [vec3_normalize_pos _ (by unfold Vec3.normSq; norm_num)]
    unfold Vec3.normSq Vec3.scale
    norm_num
  rw [hn]
  norm_num

/-- C9 (amended): `hitByBat` leaves the `bat_velocity` argument vector
untouched when the player is grounded, but when the player is jumping the
call normalizes the argument vector in place — after the call it holds
`normalize(bat_velocity)`, which differs from its old value whenever the
vector is nonzero with magnitude other than 1. -/
theorem c9_amended_argument_mutation (p : Player) (bv : Vec3) :
    (p.jumping = false → (Player.hitByBat p bv).2 = bv) ∧
    (p.jumping = true →
      (Player.hitByBat p bv).2 = vec3_normalize bv ∧
      (bv ≠ ⟨0, 0, 0⟩ → bv.len ≠ 1 → (Player.hitByBat p bv).2 ≠ bv)) := by
  constructor
  · intro hj
    have hcond : ¬ (p.jumping = true) := by
      rw [hj]
      simp
    unfold Player.hitByBat
    rw [if_neg hcond]
  · intro hj
    have h2 : (Player.hitByBat p bv).2 = vec3_normalize bv := by
      unfold Player.hitByBat
      rw [if_pos hj]
    refine ⟨h2, fun hne h1 hcontra => ?_⟩
    rw [h2] at hcontra
    have hu := vec3_normalize_len bv hne
    rw [hcontra] at hu
    exact h1 hu

theorem c9_amended_argument_mutation_witness :
    pGround.jumping = false ∧
    (Player.hitByBat pGround ⟨2, 0, 0⟩).2 = ⟨2, 0, 0⟩ :=
  ⟨rfl, (c9_amended_argument_mutation pGround ⟨2, 0, 0⟩).1 rfl⟩

/-- C9 counterexample: with the player jumping, `hitByBat((2,0,0))` rebinds
the argument vector to its normalization `(1,0,0)` (the source writes
`vec3.normalize(bat_velocity, bat_velocity)` with the argument as the out
parameter), so the bat's velocity vector does NOT keep its components. -/
theorem c9_counterexample_argument_mutated :
    pJump.jumping = true ∧
    (Player.hitByBat pJump ⟨2, 0, 0⟩).2 ≠ ⟨2, 0, 0⟩ := by
  refine ⟨rfl, ?_⟩
  have h2 : (Player.hitByBat pJump ⟨2, 0, 0⟩).2 = vec3_normalize ⟨2, 0, 0⟩ := by
    unfold Player.hitByBat
    rw [if_pos (show pJump.jumping = true from rfl)]
  rw [h2]
  have hn : vec3_normalize ⟨(2:ℝ), 0, 0⟩ = ⟨1, 0, 0⟩ := by
    rw [vec3_normalize_pos _ (by unfold Vec3.normSq; norm_num)]
    unfold Vec3.normSq Vec3.scale
    have hsq : Real.sqrt ((2:ℝ) * 2 + 0 * 0 + 0 * 0) = 2 := by
      rw [show (2:ℝ) * 2 + 0 * 0 + 0 * 0 = 2 ^ 2 by norm_num,
        Real.sqrt_sq (by norm_num : (0:ℝ) ≤ 2)]
    simp only
    rw [hsq]
    norm_num
  rw [hn]
  intro hcontra
  have hx : (1 : ℝ) = 2 := congrArg Vec3.x hcontra
  norm_num at hx

lemma dirAt_x (i : ℕ) : (dirAt i).x = Real.cos (Real.pi * 2 * ((i : ℝ) / 60)) := by
  unfold dirAt vec2_rotate
  simp

lemma dirAt_y (i : ℕ) : (dirAt i).y = Real.sin (Real.pi * 2 * ((i : ℝ) / 60)) := by
  unfold dirAt vec2_rotate
  simp

lemma dirAt_theta_30 : Real.pi * 2 * (((30 : ℕ) : ℝ) / 60) = Real.pi := by
  push_cast
  ring

lemma dirAt_30_x : (dirAt 30).x = -1 := by
  rw [dirAt_x, dirAt_theta_30, Real.cos_pi]

lemma dirAt_30_y : (dirAt 30).y = 0 := by
  rw [dirAt_y, dirAt_theta_30, Real.sin_pi]

lemma dirAt_theta_59 :
    Real.pi * 2 * (((59 : ℕ) : ℝ) / 60) = 2 * Real.pi - Real.pi / 30 := by
  push_cast
  ring

lemma dirAt_59_x_pos : 0 < (dirAt 59).x := by
  rw [dirAt_x, dirAt_theta_59, Real.cos_two_pi_sub]
  exact Real.cos_pos_of_mem_Ioo
    ⟨by linarith [Real.pi_pos], by linarith [Real.pi_pos]⟩

lemma dirAt_x_ge (i : ℕ) : -1 ≤ (dirAt i).x := by
  rw [dirAt_x]
  exact Real.neg_one_le_cos _

/-- Among the 60 sample directions, only index 30 points exactly along the
negative x axis: `cos(2π i/60) = -1` forces `2π i/60 = π` in `[0, 2π)`. -/
lemma dirAt_x_eq_neg_one_iff (i : ℕ) (hi : i < 60) (hx : (dirAt i).x = -1) :
    i = 30 := by
  rw [dirAt_x] at hx
  have hcast : (i : ℝ) < 60 := by exact_mod_cast hi
  have hge : (0 : ℝ) ≤ (i : ℝ) := Nat.cast_nonneg i
  have hpi := Real.pi_pos
  have h1 : Real.cos (Real.pi * 2 * ((i : ℝ) / 60) - Real.pi) = 1 := by
    rw [Real.cos_sub_pi, hx]
    norm_num
  have hlow : -(2 * Real.pi) < Real.pi * 2 * ((i : ℝ) / 60) - Real.pi := by
    nlinarith
  have hhigh : Real.pi * 2 * ((i : ℝ) / 60) - Real.pi < 2 * Real.pi := by
    nlinarith
  have h0 := (Real.cos_eq_one_iff_of_lt_of_lt hlow hhigh).mp h1
  have : Real.pi * 2 * ((i : ℝ) / 60) = Real.pi := by linarith
  have hI : (i : ℝ) = 30 := by
    have hne : Real.pi ≠ 0 := ne_of_gt hpi
    field_simp at this
    nlinarith [this]
  exact_mod_cast hI

/-- The predicted position `new_pos = position + velocity * dt` of a player
update. -/
def PUpd.newPos (p : Player) (dms : ℝ) : Vec3 :=
  Vec3.scaleAndAdd p.position p.velocity (dms / 1000)

/-- `player_base_y` of a player update. -/
def PUpd.baseY (w : World) (p : Player) (dms : ℝ) : ℝ :=
  w.getHeightAtCirclePosition (PUpd.newPos p dms).x (PUpd.newPos p dms).z p.radius

/-- The sampled terrain height of the sliding loop at sample index `i`. -/
def PUpd.sample (w : World) (p : Player) (dms : ℝ) : ℕ → ℝ := fun i =>
  w.getHeightAtPointPosition ((PUpd.newPos p dms).x + (dirAt i).x * 0.01)
    ((PUpd.newPos p dms).z + (dirAt i).y * 0.01)

/-- Closed form of the grounded, on-disk branch of `Player.update` (friction
then the sliding loop), spelling the loop's outcome with `slideFold`. -/
lemma Player.update_grounded_slide (w : World) (p : Player) (dms : ℝ)
    (hj : ¬ (p.jumping = true))
    (hdisk : w.isOnDisk (PUpd.newPos p dms).x (PUpd.newPos p dms).z p.radius) :
    Player.update p w dms =
      { p with
          velocity :=
            if w.getSlopeFactorAtPosition (PUpd.newPos p dms).x (PUpd.newPos p dms).z <
                (PUpd.baseY w p dms -
                  (slideFold (PUpd.sample w p dms) (PUpd.baseY w p dms)).1) / 0.01 then
              Vec3.add
                (Vec3.scale ⟨p.velocity.x, 0, p.velocity.z⟩
                  (Real.rpow
                    (w.getFrictionAtPosition (PUpd.newPos p dms).x (PUpd.newPos p dms).z)
                    (dms / 1000)))
                (Vec3.scale
                  ⟨(if (slideFold (PUpd.sample w p dms) (PUpd.baseY w p dms)).2 then
                      dirAt 59 else ⟨0, 0⟩).x, 0,
                    (if (slideFold (PUpd.sample w p dms) (PUpd.baseY w p dms)).2 then
                      dirAt 59 else ⟨0, 0⟩).y⟩
                  (((PUpd.baseY w p dms -
                      (slideFold (PUpd.sample w p dms) (PUpd.baseY w p dms)).1) / 0.01 -
                    w.getSlopeFactorAtPosition (PUpd.newPos p dms).x (PUpd.newPos p dms).z) *
                    10.0 * (dms / 1000)))
            else
              Vec3.scale ⟨p.velocity.x, 0, p.velocity.z⟩
                (Real.rpow
                  (w.getFrictionAtPosition (PUpd.newPos p dms).x (PUpd.newPos p dms).z)
                  (dms / 1000)),
          position := ⟨(PUpd.newPos p dms).x, PUpd.baseY w p dms + p.half_height,
            (PUpd.newPos p dms).z⟩ } := by
  unfold PUpd.newPos at hdisk
  unfold Player.update PUpd.baseY PUpd.sample PUpd.newPos
  rw [if_neg hj, if_pos hdisk]

/-- The linear-ramp world of the C3 analysis: the terrain height at a point
is its x coordinate (uphill toward +x), the circle query reports height 0,
every point is on a disk, friction is 1 and the slope threshold is 0.5. -/
def rampWorld : World where
  getHeightAtPointPosition := fun x _ => x
  getHeightAtCirclePosition := fun _ _ _ => 0
  isOnDisk := fun _ _ _ => True
  isCylinderCollisionWithDisk := fun _ _ _ => False
  getFrictionAtPosition := fun _ _ => 1
  getSlopeFactorAtPosition := fun _ _ => 0.5
  randomXZ := ⟨0, 0, 0⟩

/-- A grounded player at rest at the origin of the ramp world. -/
def rampPlayer : Player :=
  ⟨⟨0, 0.8, 0⟩, ⟨0, 0, 0⟩, ⟨1, 0, 0⟩, false, Player_State.Standing, 0.5, 0.8⟩

lemma ramp_sample_eq (i : ℕ) :
    PUpd.sample rampWorld rampPlayer 1000 i = (dirAt i).x * 0.01 := by
  unfold PUpd.sample PUpd.newPos
  simp [rampWorld, rampPlayer, Vec3.scaleAndAdd]

lemma ramp_sample_funext :
    PUpd.sample rampWorld rampPlayer 1000 = fun i => (dirAt i).x * 0.01 :=
  funext ramp_sample_eq

lemma ramp_base_eq : PUpd.baseY rampWorld rampPlayer 1000 = 0 := by
  unfold PUpd.baseY
  simp [rampWorld]

/-- The sliding loop of the ramp scenario does find lower samples (the flag
that aliases `min_direction` to the scratch direction is set). -/
lemma ramp_fold_flag :
    (slideFold (fun i => (dirAt i).x * 0.01) 0).2 = true := by
  unfold slideFold
  rw [slideFold_snd_iff]
  refine Or.inr ⟨30, List.mem_range.mpr (by norm_num), ?_⟩
  rw [dirAt_30_x]
  norm_num

/-- The minimum sampled height of the ramp scenario is `-0.01` (attained by
the sample pointing along `-x`). -/
lemma ramp_fold_min :
    (slideFold (fun i => (dirAt i).x * 0.01) 0).1 = -0.01 := by
  apply le_antisymm
  · have h : (slideFold (fun i => (dirAt i).x * 0.01) 0).1 ≤ (dirAt 30).x * 0.01 :=
      slideFold_fst_le_mem (fun i => (dirAt i).x * 0.01) (List.range 60)
        ((0 : ℝ), false) 30 (List.mem_range.mpr (by norm_num))
    rw [dirAt_30_x] at h
    linarith
  · have hall : ∀ i ∈ List.range 60, (-0.01 : ℝ) ≤ (fun i => (dirAt i).x * 0.01) i := by
      intro i hi
      have h := dirAt_x_ge i
      simp only
      nlinarith
    exact slideFold_fst_ge (fun i => (dirAt i).x * 0.01) (List.range 60)
      ((0 : ℝ), false) (-0.01) (by norm_num) hall

/-- C3 (code bug, the aliasing of `min_direction = dir`): in the ramp world
(terrain height = x, so downhill is exactly `-x`), for the grounded player at
rest at the origin with `dt = 1 s`, the unique lowest of the 60 sampled
heights is at sample index 30, whose direction is `(-1, 0)` — so the claimed
steepest-descent acceleration would have a strictly negative x component.
The code instead applies the sliding acceleration along sample direction 59
(because `min_direction = dir` aliases the scratch vector that iterations
31..59 keep overwriting), and the resulting velocity has a strictly POSITIVE
x component: the player is pushed (almost exactly) uphill. -/
theorem c3_sliding_direction_code_bug :
    0 < (Player.update rampPlayer rampWorld 1000).velocity.x ∧
    (∀ i, i < 60 →
      PUpd.sample rampWorld rampPlayer 1000 30 ≤ PUpd.sample rampWorld rampPlayer 1000 i) ∧
    (∀ i, i < 60 →
      PUpd.sample rampWorld rampPlayer 1000 i ≤ PUpd.sample rampWorld rampPlayer 1000 30 →
      i = 30) ∧
    (dirAt 30).x = -1 ∧ (dirAt 30).y = 0 := by
  refine ⟨?_, ?_, ?_, dirAt_30_x, dirAt_30_y⟩
  · have hj : ¬ (rampPlayer.jumping = true) := by decide
    have hdisk : rampWorld.isOnDisk (PUpd.newPos rampPlayer 1000).x
        (PUpd.newPos rampPlayer 1000).z rampPlayer.radius := trivial
    rw [Player.update_grounded_slide rampWorld rampPlayer 1000 hj hdisk]
    rw [ramp_base_eq, ramp_sample_funext, ramp_fold_min, ramp_fold_flag]
    simp only [rampWorld, rampPlayer]
    norm_num
    simp only [Vec3.add, Vec3.scale]
    nlinarith [dirAt_59_x_pos]
  · intro i hi
    rw [ramp_sample_eq, ramp_sample_eq, dirAt_30_x]
    have h := dirAt_x_ge i
    nlinarith
  · intro i hi hle
    rw [ramp_sample_eq, ramp_sample_eq, dirAt_30_x] at hle
    have h := dirAt_x_ge i
    have hxeq : (dirAt i).x = -1 := by nlinarith
    exact dirAt_x_eq_neg_one_iff i hi hxeq
